import Mathlib

/-!
# Verification of the webdevops-go-common metric-collection cache subsystem

Shallow embedding of `prometheus/collector/cache.go` and the TTL discovery
cache of `azuresdk/armclient/client.go` / `client.resourcegroups.go`.

Conventions of the embedding:
* Go strings (raw cache-location specs, filesystem paths, byte contents) are
  modelled as `List Char`; Go `time.Time` / `time.Duration` as `Int`
  (nanoseconds), so `t.Add(d)` is `t + d` and `time.Until(t)` at instant
  `now` is `t - now`.
* Fallible Go calls (OS stat/read/write, blob download/upload, environment
  lookup) are modelled by passing their outcome in as an explicit argument;
  `logger.Panic` / nil-pointer dereference aborts are modelled by an `Option`
  result (`none` = the function panicked).
* `encoding/json` on the snapshot record type is modelled by an inductive
  byte-blob type `CacheBytes`: marshalling a record is injective and
  unmarshalling inverts it, while a `corrupt` blob fails to decode.  No claim
  in scope depends on the concrete JSON byte syntax.
-/

set_option autoImplicit false



/-- Go `time.Time`, as integer nanoseconds since the epoch. -/
abbrev GoTime := Int

/-- Go `time.Duration`, integer nanoseconds. -/
abbrev GoDuration := Int

/-- Go `1 * time.Minute`. -/
def oneMinute : GoDuration := 60 * 1000000000

/-- A filesystem path / raw spec string, as its sequence of characters. -/
abbrev PathStr := List Char

/-- One metric sample row (label set plus sample value).  The cache subsystem
only moves rows around and never computes with the sample value, so the
float64 value is carried opaquely (here: an `Int` payload standing for the
uninterpreted bits). -/
structure MetricRow where
  labels : List (String × String)
  value : Int
  deriving DecidableEq, Repr

/-- Modelled from the spec: `MetricList` (the per-metric ordered sample list of
the collector package, not in src/) — "mapping from metric name to ordered
sequence of metric samples".  Go's `List []MetricRow` field is `nil`-able,
which `collectionRestoreCache` inspects, hence the `Option`. -/
structure MetricList where
  List : Option (List MetricRow)
  deriving DecidableEq, Repr

/-- Modelled from the spec: `MetricList.Init` (not in src/) rebuilds the
internal lookup index of a metric list from its `List` field; the ordered
sample content is unchanged. -/
def MetricList.Init (ml : MetricList) : MetricList := ml

/-- The snapshot record (`CollectorData` of the collector package): the
persisted fields of §3 `SnapshotRecord` under the names the source uses
(`Created`, `Expiry`, `Tag`, `Metrics`).  The metric map is modelled as a
function, matching Go map semantics (unordered, key lookup). -/
structure CollectorData where
  Created : Option GoTime
  Expiry : Option GoTime
  Tag : Option String
  Metrics : String → Option MetricList

/-- Modelled from the spec: `NewCollectorData` (not in src/) produces an empty
record — no created/expiry/tag timestamps and no metric entries. -/
def NewCollectorData : CollectorData :=
  { Created := none, Expiry := none, Tag := none, Metrics := fun _ => none }

/-- Serialized snapshot bytes.  `rec r` is the JSON serialization of record
`r`; `corrupt s` stands for any byte blob that does not decode into a
snapshot record. -/
inductive CacheBytes where
  | record (r : CollectorData)
  | corrupt (raw : String)

/-- `json.Marshal` on a snapshot record (modelled total: the record type has
no unmarshalable fields). -/
def jsonMarshal (d : CollectorData) : CacheBytes := CacheBytes.record d

/-- `json.Unmarshal` of cached bytes into a snapshot record: inverts
`jsonMarshal`, fails on anything else. -/
def jsonUnmarshal : CacheBytes → Option CollectorData
  | CacheBytes.record r => some r
  | CacheBytes.corrupt _ => none

/-- The cache backend selector constant `cacheProtocolFile`. -/
def cacheProtocolFile : String := "file"

/-- The cache backend selector constant `cacheProtocolAzBlob`. -/
def cacheProtocolAzBlob : String := "azblob"

/-- `cacheSpecDef`: resolved cache configuration.  The Go `spec
map[string]string` is modelled as a partial function; `client`/`url` handles
are not needed by the verified operations beyond the fields kept here. -/
structure CacheSpecDef where
  protocol : String
  tag : Option String
  raw : PathStr
  specMap : String → Option PathStr

/-- Go map indexing `spec[k]` (zero value `""` for a missing key). -/
def specGet (s : CacheSpecDef) (k : String) : PathStr :=
  (s.specMap k).getD []

/-- Update of the `spec` map. -/
def specMapSet (m : String → Option PathStr) (k : String) (v : PathStr) :
    String → Option PathStr :=
  fun q => if q = k then some v else m q

/-- The collector state, restricted to the fields `cache.go` touches. -/
structure Collector where
  cache : Option CacheSpecDef
  data : CollectorData
  scrapeTime : Option GoDuration
  sleepTime : Option GoDuration
  collectionStartTime : GoTime
  lastScrapeTime : Option GoTime

/-- Modelled from the spec: `SetNextSleepDuration` (scrape scheduler, not in
src/) — §4.5: "Exposes setNextSleepDuration(d) which the Collector Cache
Manager calls during restore to shrink the first wait"; the stored duration is
the sleep used before the next collection cycle. -/
def SetNextSleepDuration (c : Collector) (d : GoDuration) : Collector :=
  { c with sleepTime := some d }

/-! ## String / path helpers (Go `strings`, `net/url`, `path/filepath`) -/

/-- `stripLit pat s`: if `s` starts with the literal `pat`, the remainder
(`strings.HasPrefix` + `strings.TrimPrefix` in one step), else `none`. -/
def stripLit : PathStr → PathStr → Option PathStr
  | [], rest => some rest
  | _ :: _, [] => none
  | p :: ps, c :: cs => if c = p then stripLit ps cs else none

/-- Split a string at the first occurrence of `sep`: `some (before, after)`,
or `none` when `sep` does not occur.  `strings.SplitN s sep 2` is
`[before, after]` when this is `some`, `[s]` when it is `none`. -/
def breakFirst (sep : Char) : PathStr → Option (PathStr × PathStr)
  | [] => none
  | c :: cs =>
    if c = sep then some ([], cs)
    else
      match breakFirst sep cs with
      | some (a, b) => some (c :: a, b)
      | none => none

/-- Split a string at the last occurrence of `sep`: `some (before, after)`,
or `none` when `sep` does not occur. -/
def breakLast (sep : Char) : PathStr → Option (PathStr × PathStr)
  | [] => none
  | c :: cs =>
    match breakLast sep cs with
    | some (d, b) => some (c :: d, b)
    | none => if c = sep then some ([], cs) else none

/-! ## `path/filepath` on configured cache paths

These follow Go's `path/filepath` on clean paths (no trailing separator, no
`..` segments) — the only shapes a configured cache file path takes.
`filepath.Dir` of a slash-free path is `"."`, and `filepath.Join(".", name)`
cleans to `name`. -/

/-- `filepath.Base`: everything after the last slash (the path itself when it
holds no slash). -/
def goFilepathBase (p : PathStr) : PathStr :=
  match breakLast '/' p with
  | some (_, b) => b
  | none => p

/-- `filepath.Dir`: everything before the last slash (`"."` when the path
holds no slash). -/
def goFilepathDir (p : PathStr) : PathStr :=
  match breakLast '/' p with
  | some (d, _) => d
  | none => ['.']

/-- `filepath.Join` of a directory and an entry name. -/
def goFilepathJoin (d b : PathStr) : PathStr :=
  if d = ['.'] then b else d ++ '/' :: b

/-! ## Filesystem snapshot backend -/

/-- The state of the local filesystem: file contents by path. -/
abbrev FileSystem := PathStr → Option CacheBytes

/-- Point update of the filesystem (`none` removes the file). -/
def fsWrite (fs : FileSystem) (p : PathStr) (v : Option CacheBytes) : FileSystem :=
  fun q => if q = p then v else fs q

/-- How far a filesystem `cacheStore` attempt gets.  `mkdirFails` models
`os.Mkdir` failing (nothing written yet); `writeTmpFails w` models
`os.WriteFile` of the temp file failing, leaving bytes `w` (possibly a
truncated blob) there; `crashBeforeRename` models a crash, or a failing
`os.Rename`, after the temp file is complete but before the atomic rename
takes effect; `ok` is the successful run. -/
inductive FsWriteOutcome where
  | mkdirFails
  | writeTmpFails (written : CacheBytes)
  | crashBeforeRename
  | ok

/-- The temp-file path computed by `cacheStore` (cache.go lines 248-254):
`filepath.Join(dirPath, fmt.Sprintf(".%s.tmp", filepath.Base(filePath)))`. -/
def tmpFilePathOf (filePath : PathStr) : PathStr :=
  goFilepathJoin (goFilepathDir filePath)
    ('.' :: goFilepathBase filePath ++ ['.', 't', 'm', 'p'])

/-- `cacheStore`, filesystem branch (cache.go lines 234-266): ensure the
directory exists, write the content to the hidden temp sibling with 0600
permissions, then atomically rename it over the destination.  Returns the new
filesystem state and whether the attempt aborted (`logger.Panic` or crash)
before completing. -/
def cacheStoreFile (fs : FileSystem) (filePath : PathStr) (content : CacheBytes)
    (outcome : FsWriteOutcome) : FileSystem × Bool :=
  match outcome with
  | FsWriteOutcome.mkdirFails => (fs, true)
  | FsWriteOutcome.writeTmpFails w =>
      (fsWrite fs (tmpFilePathOf filePath) (some w), true)
  | FsWriteOutcome.crashBeforeRename =>
      (fsWrite fs (tmpFilePathOf filePath) (some content), true)
  | FsWriteOutcome.ok =>
      let fs1 := fsWrite fs (tmpFilePathOf filePath) (some content)
      let fs2 := fsWrite fs1 (tmpFilePathOf filePath) none
      (fsWrite fs2 filePath (some content), false)

/-! ## cacheRead -/

/-- Result of `os.Stat` as `cacheRead` discriminates it: success, a not-exist
error, or any other error (permission, I/O, cancellation…). -/
inductive StatResult where
  | statOk
  | errNotExist
  | errOther
  deriving DecidableEq, Repr

/-- `cacheRead`, filesystem branch (cache.go lines 213-218): every stat result
other than a not-exist error is treated as presence; the error of the
subsequent `os.ReadFile` is discarded (`content, _ :=`), so a failed read
yields `nil` content with `found = true`. -/
def cacheReadFile (stat : StatResult) (readResult : Option CacheBytes) :
    Option CacheBytes × Bool :=
  if stat = StatResult.errNotExist then (none, false)
  else
    match readResult with
    | some content => (some content, true)
    | none => (none, true)

/-- Failure classes a blob download can produce; `cacheRead` never inspects
them. -/
inductive AzDownloadError where
  | notFound
  | authFailure
  | transportFailure
  deriving DecidableEq, Repr

/-- `cacheRead`, object-store branch (cache.go lines 219-225):
`DownloadStream` followed by `io.ReadAll` of the body; any failure of either
falls through to `return nil, false`. -/
def cacheReadAzblob (downloadRes : Except AzDownloadError Unit)
    (bodyRes : Except String CacheBytes) : Option CacheBytes × Bool :=
  match downloadRes with
  | Except.ok _ =>
    match bodyRes with
    | Except.ok content => (some content, true)
    | Except.error _ => (none, false)
  | Except.error _ => (none, false)

/-- `cacheRead` (cache.go lines 211-229): dispatch on the configured protocol;
unknown protocols fall through to `nil, false`. -/
def cacheRead (spec : CacheSpecDef) (stat : StatResult) (readResult : Option CacheBytes)
    (downloadRes : Except AzDownloadError Unit) (bodyRes : Except String CacheBytes) :
    Option CacheBytes × Bool :=
  if spec.protocol = cacheProtocolFile then cacheReadFile stat readResult
  else if spec.protocol = cacheProtocolAzBlob then cacheReadAzblob downloadRes bodyRes
  else (none, false)

/-- `cacheStore` (cache.go lines 232-272): dispatch on the protocol.  The
object-store branch (`UploadBuffer`) leaves the local filesystem untouched and
aborts (`logger.Panic`) when the upload fails. -/
def cacheStore (spec : CacheSpecDef) (fs : FileSystem) (content : CacheBytes)
    (fsOutcome : FsWriteOutcome) (azUploadOk : Bool) : FileSystem × Bool :=
  if spec.protocol = cacheProtocolFile then
    cacheStoreFile fs (specGet spec "file:path") content fsOutcome
  else if spec.protocol = cacheProtocolAzBlob then
    (fs, !azUploadOk)
  else (fs, false)

/-! ## Cache spec resolution (SetCache) -/

/-- The scheme literal `file://`. -/
def fileSchemeChars : PathStr := ['f', 'i', 'l', 'e', ':', '/', '/']

/-- The scheme literal `azblob://`. -/
def azblobSchemeChars : PathStr := ['a', 'z', 'b', 'l', 'o', 'b', ':', '/', '/']

/-- `url.Parse(...).Path` for a simple URI `scheme://authority/path` (no
percent-escapes, query or fragment — the shapes cache locations take): the
suffix starting at the first slash after the authority, empty when there is
none. -/
def urlPathAfterHost : PathStr → PathStr
  | [] => []
  | c :: cs => if c = '/' then c :: cs else urlPathAfterHost cs

/-- `SetCache` (cache.go lines 70-123), resolving a raw location string into a
cache spec.  `envOk` stands for the environment-dependent constructions of the
azblob branch succeeding (`NewArmClientFromEnvironment`, `azblob.NewClient`);
the source panics when they fail.  Result: `none` when `SetCache` panics,
otherwise the collector with its `cache` field set. -/
def SetCache (c : Collector) (cache : Option PathStr) (cacheTag : Option String)
    (envOk : Bool) : Option Collector :=
  match cache with
  | none => some { c with cache := none }
  | some rawSpec =>
    match stripLit fileSchemeChars rawSpec with
    | some rest =>
      let spec : CacheSpecDef :=
        { protocol := cacheProtocolFile, tag := cacheTag, raw := rawSpec,
          specMap := specMapSet (fun _ => none) "file:path" rest }
      some { c with cache := some spec }
    | none =>
      match stripLit azblobSchemeChars rawSpec with
      | some rest =>
        if envOk then
          match breakFirst '/' (urlPathAfterHost rest) with
          | none => none
          | some (container, blob) =>
            let spec : CacheSpecDef :=
              { protocol := cacheProtocolAzBlob, tag := cacheTag, raw := rawSpec,
                specMap := specMapSet
                  (specMapSet (fun _ => none) "azblob:container" container)
                  "azblob:blob" blob }
            some { c with cache := some spec }
        else none
      | none =>
        let spec : CacheSpecDef :=
          { protocol := cacheProtocolFile, tag := cacheTag, raw := rawSpec,
            specMap := specMapSet (fun _ => none) "file:path" rawSpec }
        some { c with cache := some spec }

/-! ## Collector cache manager: restore and save -/

/-- The tag-enforcement test of `collectionRestoreCache` (cache.go lines
143-149): enforced only when the configured spec carries a tag; then an absent
or different record tag is a mismatch (the `to.String` dereferences are
guarded by the nil checks). -/
def tagMismatch (specTag recordTag : Option String) : Bool :=
  match specTag with
  | none => false
  | some t =>
    match recordTag with
    | none => true
    | some rt => if t = rt then false else true

/-- Merge of the restored metric lists into the live metric map (cache.go
lines 154-163): only names already registered live are touched, restored
entries with a nil list are skipped, and a replaced list is re-`Init`ed. -/
def mergeMetrics (live restored : String → Option MetricList) :
    String → Option MetricList :=
  fun name =>
    match restored name with
    | none => live name
    | some rml =>
      match rml.List with
      | none => live name
      | some l =>
        match live name with
        | none => live name
        | some ml => some (MetricList.Init { ml with List := some l })

/-- The body of `collectionRestoreCache` once a record has been successfully
deserialized (cache.go lines 143-181): enforce the tag, require an unexpired
expiry, then merge the record into live state, recompute the next sleep, and
adopt the record's creation time as the last scrape time.  Returns whether the
record was applied, with the updated collector. -/
def restoreFromRecord (c : Collector) (restoredData : CollectorData) (now : GoTime) :
    Bool × Collector :=
  match c.cache with
  | none => (false, c)
  | some spec =>
    if tagMismatch spec.tag restoredData.Tag then (false, c)
    else
      match restoredData.Expiry with
      | some exp =>
        if now < exp then
          let data1 := { c.data with
            Expiry := some exp,
            Metrics := mergeMetrics c.data.Metrics restoredData.Metrics }
          let c1 := { c with data := data1 }
          let sleepCalc := (exp - now) + oneMinute
          let c2 :=
            match c1.scrapeTime with
            | some st => if sleepCalc < st then SetNextSleepDuration c1 sleepCalc else c1
            | none => c1
          let c3 :=
            match restoredData.Created with
            | some created => { c2 with lastScrapeTime := some created }
            | none => c2
          (true, c3)
        else (false, c)
      | none => (false, c)

/-- `collectionRestoreCache` (cache.go lines 131-188) with the cache-read
result passed in: no configured cache, a missing blob, or an undecodable blob
all yield a cold start (`false`, state unchanged). -/
def collectionRestoreCache (c : Collector) (readRes : Option CacheBytes) (now : GoTime) :
    Bool × Collector :=
  match c.cache with
  | none => (false, c)
  | some _ =>
    match readRes with
    | some cacheContent =>
      match jsonUnmarshal cacheContent with
      | some restoredData => restoreFromRecord c restoredData now
      | none => (false, c)
    | none => (false, c)

/-- `collectionSaveCache` (cache.go lines 191-208): stamp the record in place
(`Created` = cycle start time, `Expiry` = current time + current sleep
duration, `Tag` = configured tag), serialize it, and hand the bytes to
`cacheStore`.  `none` models the nil-pointer panic when no sleep duration is
set; the serialized bytes are `none` when caching is disabled. -/
def collectionSaveCache (c : Collector) (now : GoTime) :
    Option (Collector × Option CacheBytes) :=
  match c.cache with
  | none => some (c, none)
  | some spec =>
    match c.sleepTime with
    | none => none
    | some slp =>
      let expiryTime := now + slp
      let data1 := { c.data with
        Created := some c.collectionStartTime,
        Expiry := some expiryTime,
        Tag := spec.tag }
      some ({ c with data := data1 }, some (jsonMarshal data1))

/-- Events the save step logs. -/
inductive SaveLogEvent where
  | savedState
  | saveFailed
  deriving DecidableEq, Repr

/-- The cycle phases surrounding the save step. -/
inductive CyclePhase where
  | collecting
  | saving
  | sleeping
  deriving DecidableEq, Repr

/-- Modelled from the spec: the collector's run loop around the save step
(collector.go, not in src/).  §4.4: a failed write "must be reported, not
silently swallowed, but must not abort the collection cycle that already
completed", and §7: "Persistence failures (read or write) never abort a
collection cycle" — so the abort `cacheStore` raises on a failed write is
recovered by the loop, logged, and the loop proceeds into sleeping with the
collected in-memory metrics intact. -/
def collectionCycleSaveStep (c : Collector) (now : GoTime) (fs : FileSystem)
    (fsOutcome : FsWriteOutcome) (azUploadOk : Bool) :
    Option (Collector × FileSystem × List SaveLogEvent × CyclePhase) :=
  match collectionSaveCache c now with
  | none => none
  | some (c1, obytes) =>
    match obytes, c1.cache with
    | some content, some spec =>
      let stored := cacheStore spec fs content fsOutcome azUploadOk
      if stored.2 then
        some (c1, stored.1, [SaveLogEvent.saveFailed], CyclePhase.sleeping)
      else
        some (c1, stored.1, [SaveLogEvent.savedState], CyclePhase.sleeping)
    | _, _ => some (c1, fs, [], CyclePhase.sleeping)

/-! ## TTL lookup cache (`github.com/patrickmn/go-cache` as the ArmClient uses it) -/

/-- An entry of the TTL cache: the value with its optional absolute expiry
instant (`none` = never expires). -/
structure TtlEntry (α : Type) where
  value : α
  expiresAt : Option GoTime

/-- The in-memory TTL lookup cache, typed per instance (the Go `interface{}`
values together with the runtime type assertions of the callers collapse to a
typed store).  `defaultTtl` is the default expiration given to `cache.New`. -/
structure TtlCache (α : Type) where
  defaultTtl : GoDuration
  entries : String → Option (TtlEntry α)

/-- `cache.Get` at instant `now`: found unless the entry is absent or lapsed
(a lapsed entry is treated as absent even if not yet purged). -/
def TtlCache.get {α : Type} (cache : TtlCache α) (now : GoTime) (k : String) :
    Option α :=
  match cache.entries k with
  | none => none
  | some e =>
    match e.expiresAt with
    | none => some e.value
    | some exp => if exp < now then none else some e.value

/-- `cache.Set k v ttl`: store with an explicit TTL, overwriting any previous
entry. -/
def TtlCache.set {α : Type} (cache : TtlCache α) (now : GoTime) (k : String)
    (v : α) (ttl : GoDuration) : TtlCache α :=
  { cache with entries := fun q =>
      if q = k then some { value := v, expiresAt := some (now + ttl) }
      else cache.entries q }

/-- `cache.SetDefault k v`: store with the cache-wide default expiration. -/
def TtlCache.setDefault {α : Type} (cache : TtlCache α) (now : GoTime) (k : String)
    (v : α) : TtlCache α :=
  TtlCache.set cache now k v cache.defaultTtl

/-- `ArmClient.cacheData` (client.go lines 203-214): compute-if-absent over
the TTL cache.  The fallible producer `callback` is represented by its result,
Go's `(interface{}, error)` pair: on a hit the cached value is returned; on a
miss the producer runs, its result is cached (with the default expiration,
per `SetDefault`) only when its error is nil, and the producer's result pair
is returned as-is. -/
def cacheData {α : Type} (client : TtlCache α) (now : GoTime) (identifier : String)
    (callback : α × Option String) : (α × Option String) × TtlCache α :=
  match TtlCache.get client now identifier with
  | some v => ((v, none), client)
  | none =>
    match callback.2 with
    | none => ((callback.1, none), TtlCache.setDefault client now identifier callback.1)
    | some e => ((callback.1, some e), client)

/-- `ListCachedResourceGroups` (client.resourcegroups.go lines 12-32): look up
`"resourcegroups:" ++ subscriptionID`; on a miss run the enumeration (its
result passed in as `listResult`, Go's `(list, error)` pair) and cache it with
the client's configured TTL only when the error is nil.  The Go runtime type
assertion on the cached `interface{}` value always succeeds in this typed
model. -/
def ListCachedResourceGroups {α : Type} (client : TtlCache α) (cacheTtl : GoDuration)
    (now : GoTime) (subscriptionID : String) (listResult : α × Option String) :
    (α × Option String) × TtlCache α :=
  let cacheKey := "resourcegroups:" ++ subscriptionID
  match TtlCache.get client now cacheKey with
  | some v => ((v, none), client)
  | none =>
    match listResult.2 with
    | some e => ((listResult.1, some e), client)
    | none =>
      ((listResult.1, none), TtlCache.set client now cacheKey listResult.1 cacheTtl)

/-! ## Shared concrete instances for witnesses and counterexamples -/

/-- A baseline collector with no cache configured and empty data. -/
def collector0 : Collector :=
  { cache := none, data := NewCollectorData, scrapeTime := none, sleepTime := none,
    collectionStartTime := 0, lastScrapeTime := none }

/-- A resolved file-backend cache spec at path `c`, no invalidation tag. -/
def fileSpecEx : CacheSpecDef :=
  { protocol := cacheProtocolFile, tag := none, raw := ['c'],
    specMap := specMapSet (fun _ => none) "file:path" ['c'] }

/-- A collector mid-cycle: file cache, scrape interval 600, current sleep
duration 300, cycle started at instant 0. -/
def collectorFileEx : Collector :=
  { cache := some fileSpecEx, data := NewCollectorData, scrapeTime := some 600,
    sleepTime := some 300, collectionStartTime := 0, lastScrapeTime := none }

/-- A small filesystem: destination file `c` holds some old snapshot. -/
def c1FsEx : FileSystem :=
  fun q => if q = ['c'] then some (CacheBytes.corrupt "old") else none

/-- The cache spec `SetCache` stores for an azblob location `rawSpec` whose
URL path is `'/' :: cs`: container = the empty segment before the first
slash of the path, blob = the remainder. -/
def azSpecOf (rawSpec : PathStr) (cacheTag : Option String) (cs : PathStr) :
    CacheSpecDef :=
  { protocol := cacheProtocolAzBlob, tag := cacheTag, raw := rawSpec,
    specMap := specMapSet (specMapSet (fun _ => none) "azblob:container" [])
      "azblob:blob" cs }

/-- The record `collectionSaveCache` stamps when the collector carries cache
spec `spec` and sleep duration `slp`, at save instant `now`. -/
def savedData (c : Collector) (spec : CacheSpecDef) (now : GoTime) (slp : GoDuration) :
    CollectorData :=
  { c.data with
    Created := some c.collectionStartTime,
    Expiry := some (now + slp),
    Tag := spec.tag }

/-- The collector right after the save step stamped its record. -/
def savedCollector (c : Collector) (spec : CacheSpecDef) (now : GoTime) (slp : GoDuration) :
    Collector :=
  { c with data := savedData c spec now slp }

/-- A resolved file-backend cache spec carrying the invalidation tag `v2`. -/
def tagSpecV2 : CacheSpecDef :=
  { protocol := cacheProtocolFile, tag := some "v2", raw := ['c'],
    specMap := specMapSet (fun _ => none) "file:path" ['c'] }

/-- A collector configured with the tagged spec, default sleep = scrape
interval 600. -/
def collectorTagEx : Collector :=
  { cache := some tagSpecV2, data := NewCollectorData, scrapeTime := some 600,
    sleepTime := some 600, collectionStartTime := 0, lastScrapeTime := none }

/-- A record tagged `v1`, expiring at instant 500. -/
def recordV1Ex : CollectorData :=
  { Created := some 0, Expiry := some 500, Tag := some "v1", Metrics := fun _ => none }

/-- A record tagged `v2` (matching the configured spec), expiring at 500. -/
def recordV2Ex : CollectorData :=
  { Created := some 0, Expiry := some 500, Tag := some "v2", Metrics := fun _ => none }

/-- An empty TTL cache over integer payloads, default expiration 60. -/
def emptyIntTtlCache : TtlCache Int := { defaultTtl := 60, entries := fun _ => none }

/-- A sample metric row. -/
def rowEx : MetricRow := { labels := [("node", "a")], value := 7 }

/-- Metric state of the saving collector: one metric `cpu` with one row. -/
def savedMetricsEx : String → Option MetricList :=
  fun name => if name = "cpu" then some { List := some [rowEx] } else none

/-- Freshly registered metric state: same metric name, empty placeholder. -/
def freshMetricsEx : String → Option MetricList :=
  fun name => if name = "cpu" then some { List := none } else none

/-- The saving collector for the round-trip witness. -/
def c9SaveCollectorEx : Collector :=
  { cache := some tagSpecV2,
    data := { Created := none, Expiry := none, Tag := none, Metrics := savedMetricsEx },
    scrapeTime := some 600, sleepTime := some 600, collectionStartTime := 0,
    lastScrapeTime := none }

/-- The freshly started collector for the round-trip witness. -/
def c9FreshCollectorEx : Collector :=
  { cache := some tagSpecV2,
    data := { Created := none, Expiry := none, Tag := none, Metrics := freshMetricsEx },
    scrapeTime := some 600, sleepTime := some 600, collectionStartTime := 0,
    lastScrapeTime := none }

/-! ## Theorems -/

theorem breakFirst_eq_none_iff (sep : Char) (l : PathStr) :
    breakFirst sep l = none ↔ sep ∉ l := by
  induction l with
  | nil => simp [breakFirst]
  | cons c cs ih =>
    by_cases hc : c = sep
    · subst hc; simp [breakFirst]
    · have hne : ¬sep = c := fun hx => hc hx.symm
      cases h : breakFirst sep cs with
      | none =>
        have hmem : sep ∉ cs := ih.mp h
        simp [breakFirst, hc, h, hmem, hne]
      | some p =>
        have hmem : sep ∈ cs := by
          by_contra hno
          rw [ih.mpr hno] at h
          cases h
        obtain ⟨a, b⟩ := p
        simp [breakFirst, hc, h, hmem]

theorem breakLast_append (sep : Char) (l : PathStr) (d b : PathStr)
    (h : breakLast sep l = some (d, b)) : l = d ++ sep :: b := by
  induction l generalizing d b with
  | nil => cases h
  | cons c cs ih =>
    simp only [breakLast] at h
    cases hcs : breakLast sep cs with
    | some p =>
      rw [hcs] at h
      cases h
      simp [ih p.1 p.2 hcs]
    | none =>
      rw [hcs] at h
      by_cases hc : c = sep
      · rw [if_pos hc] at h
        cases h
        simp [hc]
      · rw [if_neg hc] at h
        cases h

theorem length_lt_tmpFilePathOf (p : PathStr) :
    p.length < (tmpFilePathOf p).length := by
  cases h : breakLast '/' p with
  | none =>
    simp only [tmpFilePathOf, goFilepathDir, goFilepathBase, goFilepathJoin, h]
    simp
    omega
  | some db =>
    obtain ⟨d, b⟩ := db
    have hp := breakLast_append '/' p d b h
    subst hp
    by_cases hd : d = ['.']
    · subst hd
      simp only [tmpFilePathOf, goFilepathDir, goFilepathBase, goFilepathJoin, h,
        if_pos rfl]
      simp
    · simp only [tmpFilePathOf, goFilepathDir, goFilepathBase, goFilepathJoin, h,
        if_neg hd]
      simp

/-- The temp file is always a different directory entry than the destination
(its name is five characters longer). -/
theorem tmpFilePathOf_ne (p : PathStr) : tmpFilePathOf p ≠ p := by
  intro h
  have hlen := length_lt_tmpFilePathOf p
  rw [h] at hlen
  omega

/-! ## Claim theorems -/

/-- Claim C1: for the filesystem snapshot backend, a write attempt that errors
(or the process crashes) before the rename of the temporary file takes effect
leaves the destination exactly as it was: the old complete content, never a
partial mixture of old and new bytes. -/
theorem c1_fs_write_failure_preserves_destination
    (fs : FileSystem) (filePath : PathStr) (content : CacheBytes)
    (outcome : FsWriteOutcome) (h : outcome ≠ FsWriteOutcome.ok) :
    (cacheStoreFile fs filePath content outcome).1 filePath = fs filePath := by
  have hne : ¬(filePath = tmpFilePathOf filePath) :=
    fun hx => tmpFilePathOf_ne filePath hx.symm
  cases outcome with
  | ok => exact absurd rfl h
  | mkdirFails => rfl
  | writeTmpFails w => simp [cacheStoreFile, fsWrite, hne]
  | crashBeforeRename => simp [cacheStoreFile, fsWrite, hne]

theorem c1_witness :
    FsWriteOutcome.crashBeforeRename ≠ FsWriteOutcome.ok ∧
    (cacheStoreFile c1FsEx ['c'] (CacheBytes.corrupt "new")
      FsWriteOutcome.crashBeforeRename).1 ['c'] = some (CacheBytes.corrupt "old") :=
  ⟨fun hx => FsWriteOutcome.noConfusion hx,
    (c1_fs_write_failure_preserves_destination c1FsEx ['c'] (CacheBytes.corrupt "new")
      FsWriteOutcome.crashBeforeRename
      (fun hx => FsWriteOutcome.noConfusion hx)).trans rfl⟩

/-- Claim C2 counterexample: an authentication failure during download — not a
not-found failure — is reported as `found = false`; no error reaches the
caller (the read interface has no error channel at all). -/
theorem c2_counterexample :
    cacheReadAzblob (Except.error AzDownloadError.authFailure)
      (Except.ok (CacheBytes.corrupt "payload")) = (none, false) := rfl

/-- Claim C2 amended: the object-store read reports every download failure —
not-found, authentication, or transport alike — as `found = false`; failures
are never propagated as errors, since the read interface returns none. -/
theorem c2_amended_all_failures_not_found
    (e : AzDownloadError) (bodyRes : Except String CacheBytes) :
    cacheReadAzblob (Except.error e) bodyRes = (none, false) := rfl

/-- Claim C10 (implicit): the filesystem `cacheRead` returns `found = true`
whenever stat does not report not-exist — including when the file exists but
cannot be read — and the error of the full-file read is ignored, so
`found = true` can come with nil (empty) content instead of the file's
bytes. -/
theorem c10_file_read_found_despite_errors
    (stat : StatResult) (readResult : Option CacheBytes)
    (h : stat ≠ StatResult.errNotExist) :
    (cacheReadFile stat readResult).2 = true ∧
    (cacheReadFile stat readResult).1 = readResult := by
  cases readResult <;> simp [cacheReadFile, h]

theorem c10_witness :
    StatResult.errOther ≠ StatResult.errNotExist ∧
    (cacheReadFile StatResult.errOther none).2 = true ∧
    (cacheReadFile StatResult.errOther none).1 = none :=
  ⟨by decide, c10_file_read_found_despite_errors StatResult.errOther none (by decide)⟩

theorem stripLit_append (p s : PathStr) : stripLit p (p ++ s) = some s := by
  induction p with
  | nil => rfl
  | cons c cs ih => simp [stripLit, ih]

theorem urlPathAfterHost_shape (l : PathStr) :
    urlPathAfterHost l = [] ∨ ∃ cs, urlPathAfterHost l = '/' :: cs := by
  induction l with
  | nil => exact Or.inl rfl
  | cons c cs ih =>
    by_cases hc : c = '/'
    · subst hc
      exact Or.inr ⟨cs, by simp [urlPathAfterHost]⟩
    · simpa [urlPathAfterHost, hc] using ih

/-- Claim C3 counterexample: the location `azblob://host/` has no container
and no blob-name segment, yet resolution succeeds (no fatal error), producing
an empty container and an empty blob name. -/
theorem c3_counterexample :
    Option.map (fun col => Option.map
        (fun s => (specGet s "azblob:container", specGet s "azblob:blob")) col.cache)
      (SetCache collector0
        (some (azblobSchemeChars ++ ['h', 'o', 's', 't', '/'])) none true) =
    some (some (([] : PathStr), ([] : PathStr))) := rfl

/-- Claim C3 amended: resolution of an `azblob://` location fails fatally
exactly when the URL path is empty (no slash after the authority); otherwise
it succeeds, and then the stored container is the path segment before the
first slash — always the empty string, since a nonempty URL path begins with a
slash — and the stored blob name is the remainder after that slash, which may
itself be empty.  No non-emptiness of container or blob name is enforced. -/
theorem c3_amended_resolution (c : Collector) (rest : PathStr) (cacheTag : Option String) :
    (SetCache c (some (azblobSchemeChars ++ rest)) cacheTag true = none ↔
      urlPathAfterHost rest = []) ∧
    (urlPathAfterHost rest ≠ [] →
      ∃ col spec, SetCache c (some (azblobSchemeChars ++ rest)) cacheTag true = some col ∧
        col.cache = some spec ∧
        specGet spec "azblob:container" = [] ∧
        specGet spec "azblob:blob" = (urlPathAfterHost rest).tail) := by
  have hfile : stripLit fileSchemeChars (azblobSchemeChars ++ rest) = none := rfl
  have haz : stripLit azblobSchemeChars (azblobSchemeChars ++ rest) = some rest :=
    stripLit_append _ _
  have hcb : ¬("azblob:container" = "azblob:blob") := by decide
  constructor
  · rcases urlPathAfterHost_shape rest with hsh | ⟨cs, hsh⟩
    · simp [SetCache, hfile, haz, hsh, breakFirst]
    · simp [SetCache, hfile, haz, hsh, breakFirst]
  · intro hne
    rcases urlPathAfterHost_shape rest with hsh | ⟨cs, hsh⟩
    · exact absurd hsh hne
    · have hbf : breakFirst '/' (urlPathAfterHost rest) = some ([], cs) := by
        rw [hsh]; simp [breakFirst]
      refine ⟨{ c with cache := some (azSpecOf (azblobSchemeChars ++ rest) cacheTag cs) },
        azSpecOf (azblobSchemeChars ++ rest) cacheTag cs, ?_, rfl, ?_, ?_⟩
      · simp only [SetCache, hfile, haz, hbf, if_pos, azSpecOf]
      · simp [azSpecOf, specGet, specMapSet, hcb]
      · simp [azSpecOf, specGet, specMapSet, hsh]

theorem c3_witness :
    (SetCache collector0
        (some (azblobSchemeChars ++ ['h', 'o', 's', 't', '/', 'k', '/', 'b'])) none true = none ↔
      urlPathAfterHost ['h', 'o', 's', 't', '/', 'k', '/', 'b'] = []) ∧
    (urlPathAfterHost ['h', 'o', 's', 't', '/', 'k', '/', 'b'] ≠ [] →
      ∃ col spec, SetCache collector0
          (some (azblobSchemeChars ++ ['h', 'o', 's', 't', '/', 'k', '/', 'b'])) none true =
            some col ∧
        col.cache = some spec ∧
        specGet spec "azblob:container" = [] ∧
        specGet spec "azblob:blob" =
          (urlPathAfterHost ['h', 'o', 's', 't', '/', 'k', '/', 'b']).tail) :=
  c3_amended_resolution collector0 ['h', 'o', 's', 't', '/', 'k', '/', 'b'] none

/-- Claim C4 counterexample: with cycle start time 0, configured scrape
interval 600 and current sleep duration 300, a save executed at instant 100
stamps the record with expiry 100 + 300 = 400 — not cycle start + scrape
interval = 600 as claimed.  (`Created` does get the cycle start time.) -/
theorem c4_counterexample :
    Option.map (fun p => (p.1.data.Created, p.1.data.Expiry))
      (collectionSaveCache collectorFileEx 100) = some (some 0, some 400) ∧
    (400 : GoTime) ≠ 0 + 600 := ⟨rfl, by decide⟩

/-- Claim C4 amended: the persisted record carries `createdAt` = cycle start
time, `tag` = the manager's configured tag (absent if none), and the full
current metric state — but `expiresAt` = the instant of the save step plus the
manager's **current sleep duration** (which equals the configured scrape
interval only by default), not cycle start time plus scrape interval. -/
theorem c4_amended_save_record_fields (c : Collector) (now : GoTime)
    (spec : CacheSpecDef) (slp : GoDuration)
    (hc : c.cache = some spec) (hs : c.sleepTime = some slp) :
    ∃ c1, collectionSaveCache c now = some (c1, some (jsonMarshal c1.data)) ∧
      c1.data.Created = some c.collectionStartTime ∧
      c1.data.Expiry = some (now + slp) ∧
      c1.data.Tag = spec.tag ∧
      (∀ name, c1.data.Metrics name = c.data.Metrics name) := by
  refine ⟨savedCollector c spec now slp, ?_, rfl, rfl, rfl, fun _ => rfl⟩
  simp [collectionSaveCache, hc, hs, savedCollector, savedData]

theorem c4_witness :
    ∃ c1, collectionSaveCache collectorFileEx 100 = some (c1, some (jsonMarshal c1.data)) ∧
      c1.data.Created = some collectorFileEx.collectionStartTime ∧
      c1.data.Expiry = some (100 + 300) ∧
      c1.data.Tag = fileSpecEx.tag ∧
      (∀ name, c1.data.Metrics name = collectorFileEx.data.Metrics name) :=
  c4_amended_save_record_fields collectorFileEx 100 fileSpecEx 300 rfl rfl

/-- Claim C5: a snapshot write failure during the save step is reported (the
loop logs the recovered failure, never silently swallows it) yet does not
abort the completed collection cycle: the collected in-memory metrics are
kept and the loop proceeds into the next sleep. -/
theorem c5_write_failure_reported_cycle_continues
    (c : Collector) (now : GoTime) (fs : FileSystem) (fsOutcome : FsWriteOutcome)
    (azUploadOk : Bool) (spec : CacheSpecDef) (slp : GoDuration)
    (hc : c.cache = some spec) (hs : c.sleepTime = some slp)
    (hfail : (spec.protocol = cacheProtocolFile ∧ fsOutcome ≠ FsWriteOutcome.ok) ∨
      (spec.protocol = cacheProtocolAzBlob ∧ azUploadOk = false)) :
    ∃ c1 fs1, collectionCycleSaveStep c now fs fsOutcome azUploadOk =
        some (c1, fs1, [SaveLogEvent.saveFailed], CyclePhase.sleeping) ∧
      (∀ name, c1.data.Metrics name = c.data.Metrics name) := by
  have hstep : ∀ content, (cacheStore spec fs content fsOutcome azUploadOk).2 = true := by
    intro content
    rcases hfail with ⟨hp, hout⟩ | ⟨hp, haz⟩
    · rw [cacheStore, if_pos hp]
      cases fsOutcome with
      | ok => exact absurd rfl hout
      | mkdirFails => rfl
      | writeTmpFails w => rfl
      | crashBeforeRename => rfl
    · rw [cacheStore, hp, haz]
      simp [cacheProtocolFile, cacheProtocolAzBlob]
  refine ⟨savedCollector c spec now slp,
    (cacheStore spec fs (jsonMarshal (savedData c spec now slp)) fsOutcome azUploadOk).1,
    ?_, fun _ => rfl⟩
  simp only [collectionCycleSaveStep, collectionSaveCache, hc, hs]
  simp only [savedCollector, savedData, hstep, if_pos, hc, hs]

theorem c5_witness :
    ∃ c1 fs1, collectionCycleSaveStep collectorFileEx 100 (fun _ => none)
        FsWriteOutcome.mkdirFails true =
      some (c1, fs1, [SaveLogEvent.saveFailed], CyclePhase.sleeping) ∧
      (∀ name, c1.data.Metrics name = collectorFileEx.data.Metrics name) :=
  c5_write_failure_reported_cycle_continues collectorFileEx 100 (fun _ => none)
    FsWriteOutcome.mkdirFails true fileSpecEx 300 rfl rfl
    (Or.inl ⟨rfl, fun hx => FsWriteOutcome.noConfusion hx⟩)

theorem tagMismatch_false_iff (st rt : Option String) :
    tagMismatch st rt = false ↔ (st = none ∨ st = rt) := by
  cases st with
  | none => simp [tagMismatch]
  | some t =>
    cases rt with
    | none => simp [tagMismatch]
    | some rt' =>
      by_cases h : t = rt'
      · subst h; simp [tagMismatch]
      · simp [tagMismatch, h]

/-- Claim C6: for a deserialized record — when the configured spec carries an
invalidation tag and the record's tag is absent or differs from it, the record
is discarded with the collector unchanged (cold start, not an error); a record
whose expiry is absent or not in the future is discarded regardless of the
tag; and a record is applied only when it passes both checks. -/
theorem c6_tag_and_expiry_enforcement
    (c : Collector) (r : CollectorData) (now : GoTime) (spec : CacheSpecDef)
    (hc : c.cache = some spec) :
    (∀ t, spec.tag = some t → r.Tag ≠ some t →
      restoreFromRecord c r now = (false, c)) ∧
    ((∀ exp, r.Expiry = some exp → ¬now < exp) →
      restoreFromRecord c r now = (false, c)) ∧
    ((restoreFromRecord c r now).1 = true →
      (spec.tag = none ∨ spec.tag = r.Tag) ∧ ∃ exp, r.Expiry = some exp ∧ now < exp) := by
  refine ⟨?_, ?_, ?_⟩
  · intro t ht hne
    have hmm : tagMismatch spec.tag r.Tag = true := by
      rw [ht]
      cases hr : r.Tag with
      | none => rfl
      | some rt =>
        have hd : ¬(t = rt) := fun hx => hne (by rw [hr, hx])
        simp [tagMismatch, hd]
    simp [restoreFromRecord, hc, hmm]
  · intro hexp
    cases hmm : tagMismatch spec.tag r.Tag with
    | true => simp [restoreFromRecord, hc, hmm]
    | false =>
      cases he : r.Expiry with
      | none => simp [restoreFromRecord, hc, hmm, he]
      | some exp =>
        have hnl := hexp exp he
        simp [restoreFromRecord, hc, hmm, he, hnl]
  · intro happ
    cases hmm : tagMismatch spec.tag r.Tag with
    | true => simp [restoreFromRecord, hc, hmm] at happ
    | false =>
      refine ⟨(tagMismatch_false_iff spec.tag r.Tag).mp hmm, ?_⟩
      cases he : r.Expiry with
      | none => simp [restoreFromRecord, hc, hmm, he] at happ
      | some exp =>
        by_cases hlt : now < exp
        · exact ⟨exp, rfl, hlt⟩
        · simp [restoreFromRecord, hc, hmm, he, hlt] at happ

theorem c6_witness :
    (∀ t, tagSpecV2.tag = some t → recordV1Ex.Tag ≠ some t →
      restoreFromRecord collectorTagEx recordV1Ex 100 = (false, collectorTagEx)) ∧
    ((∀ exp, recordV1Ex.Expiry = some exp → ¬(100 : GoTime) < exp) →
      restoreFromRecord collectorTagEx recordV1Ex 100 = (false, collectorTagEx)) ∧
    ((restoreFromRecord collectorTagEx recordV1Ex 100).1 = true →
      (tagSpecV2.tag = none ∨ tagSpecV2.tag = recordV1Ex.Tag) ∧
      ∃ exp, recordV1Ex.Expiry = some exp ∧ (100 : GoTime) < exp) :=
  c6_tag_and_expiry_enforcement collectorTagEx recordV1Ex 100 tagSpecV2 rfl

/-- Claim C7: for an accepted restored snapshot, with the scrape interval
configured and the sleep still at its default (the full configured interval),
the next sleep duration becomes min(max(0, expiresAt − now) + one-minute
safety margin, scrape interval): a restored snapshot may shorten the next wait
but never lengthens it beyond the configured cadence. -/
theorem c7_sleep_clamp (c : Collector) (r : CollectorData) (now : GoTime)
    (spec : CacheSpecDef) (exp : GoTime) (st : GoDuration)
    (hc : c.cache = some spec)
    (htag : tagMismatch spec.tag r.Tag = false)
    (hexp : r.Expiry = some exp) (hfut : now < exp)
    (hst : c.scrapeTime = some st) (hdef : c.sleepTime = some st) :
    (restoreFromRecord c r now).1 = true ∧
    (restoreFromRecord c r now).2.sleepTime =
      some (min (max 0 (exp - now) + oneMinute) st) ∧
    min (max 0 (exp - now) + oneMinute) st ≤ st := by
  have hmax : max 0 (exp - now) = exp - now :=
    max_eq_right (Int.sub_nonneg.mpr (le_of_lt hfut))
  rw [hmax]
  refine ⟨?_, ?_, ?_⟩
  · simp [restoreFromRecord, hc, htag, hexp, hfut]
  · cases hcr : r.Created with
    | none =>
      by_cases hlt : (exp - now) + oneMinute < st
      · simp [restoreFromRecord, hc, htag, hexp, hfut, hst, hcr, hlt, SetNextSleepDuration]
        exact le_of_lt hlt
      · simp [restoreFromRecord, hc, htag, hexp, hfut, hst, hcr, hlt, hdef]
        exact le_of_not_lt hlt
    | some created =>
      by_cases hlt : (exp - now) + oneMinute < st
      · simp [restoreFromRecord, hc, htag, hexp, hfut, hst, hcr, hlt, SetNextSleepDuration]
        exact le_of_lt hlt
      · simp [restoreFromRecord, hc, htag, hexp, hfut, hst, hcr, hlt, hdef]
        exact le_of_not_lt hlt
  · exact min_le_right _ _

theorem c7_witness :
    (restoreFromRecord collectorTagEx recordV2Ex 100).1 = true ∧
    (restoreFromRecord collectorTagEx recordV2Ex 100).2.sleepTime =
      some (min (max 0 ((500 : GoTime) - 100) + oneMinute) 600) ∧
    min (max 0 ((500 : GoTime) - 100) + oneMinute) 600 ≤ 600 :=
  c7_sleep_clamp collectorTagEx recordV2Ex 100 tagSpecV2 500 600
    rfl rfl rfl (by decide) rfl rfl

/-- Claim C8: the compute-if-absent pattern of the TTL lookup cache — on a
miss the producer runs and its result pair is returned as-is: a failing
producer's error propagates to the caller unchanged with no cache write, while
a successful result is stored.  Shown for `cacheData` and its inlined twin
`ListCachedResourceGroups`. -/
theorem c8_compute_if_absent {α : Type} (client : TtlCache α) (now : GoTime)
    (identifier : String) (res : α) (e : String) (cacheTtl : GoDuration)
    (subscriptionID : String)
    (hmiss : TtlCache.get client now identifier = none)
    (hmissRG : TtlCache.get client now ("resourcegroups:" ++ subscriptionID) = none) :
    cacheData client now identifier (res, some e) = ((res, some e), client) ∧
    cacheData client now identifier (res, none) =
      ((res, none), TtlCache.setDefault client now identifier res) ∧
    ListCachedResourceGroups client cacheTtl now subscriptionID (res, some e) =
      ((res, some e), client) ∧
    ListCachedResourceGroups client cacheTtl now subscriptionID (res, none) =
      ((res, none),
        TtlCache.set client now ("resourcegroups:" ++ subscriptionID) res cacheTtl) := by
  refine ⟨?_, ?_, ?_, ?_⟩ <;> simp [cacheData, ListCachedResourceGroups, hmiss, hmissRG]

theorem c8_witness :
    cacheData emptyIntTtlCache 0 "k" (5, some "boom") = ((5, some "boom"), emptyIntTtlCache) ∧
    cacheData emptyIntTtlCache 0 "k" (5, none) =
      ((5, none), TtlCache.setDefault emptyIntTtlCache 0 "k" 5) ∧
    ListCachedResourceGroups emptyIntTtlCache 30 0 "sub" (5, some "boom") =
      ((5, some "boom"), emptyIntTtlCache) ∧
    ListCachedResourceGroups emptyIntTtlCache 30 0 "sub" (5, none) =
      ((5, none), TtlCache.set emptyIntTtlCache 0 ("resourcegroups:" ++ "sub") 5 30) :=
  c8_compute_if_absent emptyIntTtlCache 0 "k" 5 "boom" 30 "sub" rfl rfl

theorem mergeMetrics_restores (live saved : String → Option MetricList)
    (hdom : ∀ name, (live name).isSome ↔ (saved name).isSome)
    (hph : ∀ name ml, live name = some ml → ml.List = none) :
    ∀ name, mergeMetrics live saved name = saved name := by
  intro name
  cases hs : saved name with
  | none =>
    have hl : live name = none := by
      cases hl : live name with
      | none => rfl
      | some ml =>
        have h1 := (hdom name).mp (by rw [hl]; exact rfl)
        rw [hs] at h1
        cases h1
    simp [mergeMetrics, hs, hl]
  | some rml =>
    obtain ⟨ml, hl⟩ : ∃ ml, live name = some ml := by
      have h1 := (hdom name).mpr (by rw [hs]; exact rfl)
      cases hl : live name with
      | none => rw [hl] at h1; cases h1
      | some ml => exact ⟨ml, rfl⟩
    have hmlL : ml.List = none := hph name ml hl
    obtain ⟨mlL⟩ := ml
    obtain ⟨rmlL⟩ := rml
    have hmlL2 : mlL = none := hmlL
    subst hmlL2
    cases hrl : rmlL with
    | none =>
      subst hrl
      simp [mergeMetrics, hs, hl]
    | some l =>
      subst hrl
      simp [mergeMetrics, hs, hl, MetricList.Init]

/-- An applied restore replaces the live metric map by the merge of the
record's metrics into it (and reports the record as applied). -/
theorem restoreFromRecord_applied_metrics (c : Collector) (r : CollectorData)
    (now : GoTime) (spec : CacheSpecDef) (exp : GoTime)
    (hc : c.cache = some spec) (htm : tagMismatch spec.tag r.Tag = false)
    (hexp : r.Expiry = some exp) (hfut : now < exp) :
    (restoreFromRecord c r now).1 = true ∧
    ∀ name, (restoreFromRecord c r now).2.data.Metrics name =
      mergeMetrics c.data.Metrics r.Metrics name := by
  cases hsc : c.scrapeTime with
  | none =>
    cases hcr : r.Created with
    | none =>
      simp [restoreFromRecord, hc, htm, hexp, hfut, hsc, hcr]
    | some created =>
      simp [restoreFromRecord, hc, htm, hexp, hfut, hsc, hcr]
  | some st =>
    by_cases hlt : (exp - now) + oneMinute < st
    · cases hcr : r.Created with
      | none =>
        simp [restoreFromRecord, hc, htm, hexp, hfut, hsc, hcr, hlt, SetNextSleepDuration]
      | some created =>
        simp [restoreFromRecord, hc, htm, hexp, hfut, hsc, hcr, hlt, SetNextSleepDuration]
    · cases hcr : r.Created with
      | none =>
        simp [restoreFromRecord, hc, htm, hexp, hfut, hsc, hcr, hlt]
      | some created =>
        simp [restoreFromRecord, hc, htm, hexp, hfut, hsc, hcr, hlt]

/-- Claim C9: round-trip — a snapshot saved by a collector and immediately
restored, with the same configured tag and before its expiry, into a freshly
started collector that has the same metric names registered (with empty
placeholder lists), is applied and reproduces the saved metric state
exactly. -/
theorem c9_save_restore_roundtrip
    (c1 c2 : Collector) (now1 now2 : GoTime) (spec1 spec2 : CacheSpecDef)
    (slp : GoDuration)
    (hc1 : c1.cache = some spec1) (hs1 : c1.sleepTime = some slp)
    (hc2 : c2.cache = some spec2) (htag : spec2.tag = spec1.tag)
    (hdom : ∀ name, (c2.data.Metrics name).isSome ↔ (c1.data.Metrics name).isSome)
    (hph : ∀ name ml, c2.data.Metrics name = some ml → ml.List = none)
    (hfresh : now2 < now1 + slp) :
    ∃ c1s bytes, collectionSaveCache c1 now1 = some (c1s, some bytes) ∧
      (collectionRestoreCache c2 (some bytes) now2).1 = true ∧
      ∀ name, (collectionRestoreCache c2 (some bytes) now2).2.data.Metrics name =
        c1.data.Metrics name := by
  have hres : collectionRestoreCache c2 (some (jsonMarshal (savedData c1 spec1 now1 slp))) now2 =
      restoreFromRecord c2 (savedData c1 spec1 now1 slp) now2 := by
    simp [collectionRestoreCache, hc2, jsonMarshal, jsonUnmarshal]
  have htm : tagMismatch spec2.tag (savedData c1 spec1 now1 slp).Tag = false := by
    rw [htag]
    exact (tagMismatch_false_iff spec1.tag spec1.tag).mpr (Or.inr rfl)
  have happ := restoreFromRecord_applied_metrics c2 (savedData c1 spec1 now1 slp) now2
    spec2 (now1 + slp) hc2 htm rfl hfresh
  refine ⟨savedCollector c1 spec1 now1 slp, jsonMarshal (savedData c1 spec1 now1 slp),
    ?_, ?_, ?_⟩
  · simp [collectionSaveCache, hc1, hs1, savedCollector, savedData]
  · rw [hres]
    exact happ.1
  · intro name
    rw [hres, happ.2 name]
    exact mergeMetrics_restores c2.data.Metrics c1.data.Metrics hdom hph name

theorem c9_witness :
    ∃ c1s bytes, collectionSaveCache c9SaveCollectorEx 10 = some (c1s, some bytes) ∧
      (collectionRestoreCache c9FreshCollectorEx (some bytes) 20).1 = true ∧
      ∀ name, (collectionRestoreCache c9FreshCollectorEx (some bytes) 20).2.data.Metrics name =
        c9SaveCollectorEx.data.Metrics name :=
  c9_save_restore_roundtrip c9SaveCollectorEx c9FreshCollectorEx 10 20 tagSpecV2 tagSpecV2 600
    rfl rfl rfl rfl
    (fun name => by
      by_cases h : name = "cpu" <;>
        simp [c9FreshCollectorEx, c9SaveCollectorEx, freshMetricsEx, savedMetricsEx, h])
    (fun name ml hml => by
      by_cases h : name = "cpu"
      · subst h
        simp [c9FreshCollectorEx, freshMetricsEx] at hml
        rw [← hml]
      · simp [c9FreshCollectorEx, freshMetricsEx, h] at hml)
    (by decide)
